import Mathlib

/-!
Verification of the credential-resolution, agent tool-config and code-editor
drop logic of the workflow-builder repository.

The embedding models JS strings as Lean `String` (character lists), JS
truthiness of a string as a test against `""`, optional values as `Option`,
and thrown JS exceptions as explicit result constructors.  React state
updates inside one handler are modelled by explicit state passing; note that
reading a `useState` variable after calling its setter inside the same
closure still yields the captured (old) value, which the embedding mirrors
by reading the pre-call state throughout `fetchCredentials`.
-/

namespace Sim

/-- Icons are opaque UI values; `externalLink` is the hard-coded fallback
icon rendered when no provider configuration is found. -/
inductive Icon where
  | externalLink : Icon
  | glyph : String → Icon
deriving DecidableEq

/-- A service entry of the OAuth provider registry: provider id, display
name, icon and the scope bundle it offers. -/
structure OAuthService where
  providerId : String
  name : String
  icon : Icon
  scopes : List String
deriving DecidableEq

/-- A base-provider entry of the OAuth provider registry: display name,
icon, and its insertion-ordered service map. -/
structure OAuthProviderConfig where
  name : String
  icon : Icon
  services : List (String × OAuthService)
deriving DecidableEq

/-- The static `OAUTH_PROVIDERS` registry: base provider name to
configuration, insertion-ordered. -/
abbrev Registry := List (String × OAuthProviderConfig)

/-- Lookup in an insertion-ordered string-keyed association list, the
embedding of a JS object property access by key. -/
def lookupStr {α : Type} (l : List (String × α)) (k : String) : Option α :=
  (l.find? (fun kv => kv.1 == k)).map (fun kv => kv.2)

/-- JS `String.prototype.split` with a single-character separator, over the
character list: `""` splits to `[""]`, separators delimit possibly empty
groups. -/
def splitOnChar (sep : Char) : List Char → List (List Char)
  | [] => [[]]
  | c :: rest =>
    if c = sep then [] :: splitOnChar sep rest
    else
      match splitOnChar sep rest with
      | g :: gs => (c :: g) :: gs
      | [] => [[c]]

/-- JS `part.charAt(0).toUpperCase() + part.slice(1)`: uppercase the first
character of a segment. -/
def capFirst : List Char → List Char
  | [] => []
  | c :: rest => c.toUpper :: rest

/-- JS `Array.prototype.join(' ')` over character-list segments. -/
def joinSpace : List (List Char) → List Char
  | [] => []
  | [g] => g
  | g :: gs => g ++ ' ' :: joinSpace gs

/-- The final display-name fallback of `getProviderName`
(credential-selector.tsx lines 224-227): split the raw provider id on
dashes, capitalize each segment, join with spaces. -/
def titleCase (p : String) : String :=
  ⟨joinSpace ((splitOnChar '-' p.data).map capFirst)⟩

/-- Modelled from the spec: `parseProvider` from the `@/lib/oauth` module
(not under src/) parses a compound dash-separated provider id and returns
its base provider, the segment before the first dash. -/
def parseProvider (p : String) : String :=
  ⟨(splitOnChar '-' p.data).headD []⟩

/-- Modelled from the spec: `getServiceByProviderAndId` from `@/lib/oauth`
(not under src/) performs the exact (provider, service) match in the
registry; the TS version throws when no match exists, modelled as `none`. -/
def getServiceByProviderAndId (reg : Registry) (provider serviceId : String) :
    Option OAuthService :=
  match lookupStr reg provider with
  | some cfg => lookupStr cfg.services serviceId
  | none => none

/-- Modelled from the spec: `getServiceIdFromScopes` from `@/lib/oauth`
(not under src/) derives a service id from (provider, scopes) via the
registry scope-to-service mapping: the first service of the base provider
whose scope bundle covers every required scope; when none matches, the raw
provider id is used. -/
def getServiceIdFromScopes (reg : Registry) (provider : String)
    (requiredScopes : List String) : String :=
  match lookupStr reg (parseProvider provider) with
  | some cfg =>
    match cfg.services.find?
        (fun kv => requiredScopes.all (fun s => kv.2.scopes.contains s)) with
    | some kv => kv.1
    | none => provider
  | none => provider

/-- `getServiceId` from credential-selector.tsx (lines 55-58):
`if (serviceId) return serviceId` is a JS truthiness test, so an absent or
empty override falls through to the scope-based lookup. -/
def getServiceId (reg : Registry) (provider : String)
    (requiredScopes : List String) (serviceId : Option String) : String :=
  match serviceId with
  | some s => if s ≠ "" then s else getServiceIdFromScopes reg provider requiredScopes
  | none => getServiceIdFromScopes reg provider requiredScopes

/-- `getProviderIcon` from credential-selector.tsx (lines 171-190): base
provider lookup, `externalLink` when unregistered, a scan of the service
values by `providerId` for compound ids, then the base provider icon. -/
def getProviderIcon (reg : Registry) (providerName : String) : Icon :=
  match lookupStr reg (parseProvider providerName) with
  | none => Icon.externalLink
  | some baseProviderConfig =>
    if providerName.data.contains '-' then
      match baseProviderConfig.services.find?
          (fun kv => kv.2.providerId == providerName) with
      | some kv => kv.2.icon
      | none => baseProviderConfig.icon
    else baseProviderConfig.icon

/-- `getProviderName` from credential-selector.tsx (lines 193-229): exact
(provider, service) registry match; else for dash-containing ids a scan of
the base provider service entries by key, full id, or providerId field;
else the base provider display name; else the title-cased raw id.  The
`effectiveServiceId` argument is the enclosing component value
`getServiceId()`. -/
def getProviderName (reg : Registry) (effectiveServiceId providerName : String) :
    String :=
  match getServiceByProviderAndId reg providerName effectiveServiceId with
  | some service => service.name
  | none =>
    let baseProviderConfig := lookupStr reg (parseProvider providerName)
    let compoundMatch : Option String :=
      if providerName.data.contains '-' then
        let serviceKey : String := ⟨(splitOnChar '-' providerName.data).getD 1 []⟩
        let svcs := match baseProviderConfig with
          | some cfg => cfg.services
          | none => []
        match svcs.find? (fun kv =>
            kv.1 == serviceKey || kv.1 == providerName ||
            kv.2.providerId == providerName) with
        | some kv => some kv.2.name
        | none => none
      else none
    match compoundMatch with
    | some n => n
    | none =>
      match baseProviderConfig with
      | some cfg => cfg.name
      | none => titleCase providerName

/-- First defined result of an ordered list of resolution strategies. -/
def firstSome {α : Type} : List (Option α) → Option α
  | [] => none
  | none :: rest => firstSome rest
  | some a :: _ => some a

/-- The ordered fallback chain of the spec for provider display names,
written as an explicit list of resolution strategies where the first
defined result wins: exact (provider, service) registry match; for
compound dash-separated ids a search of the base provider service map by
key, by full id, or by providerId field; the base provider display name;
a display name synthesized by title-casing the dash-separated segments of
the raw provider id. -/
def specNameChain (reg : Registry) (effectiveServiceId providerName : String) :
    String :=
  let exactMatch := (getServiceByProviderAndId reg providerName effectiveServiceId).map
    (fun svc => svc.name)
  let base := lookupStr reg (parseProvider providerName)
  let compoundSearch :=
    if providerName.data.contains '-' then
      let serviceKey : String := ⟨(splitOnChar '-' providerName.data).getD 1 []⟩
      (((base.map (fun cfg => cfg.services)).getD []).find? (fun kv =>
          kv.1 == serviceKey || kv.1 == providerName ||
          kv.2.providerId == providerName)).map (fun kv => kv.2.name)
    else none
  let baseName := base.map (fun cfg => cfg.name)
  (firstSome [exactMatch, compoundSearch, baseName]).getD (titleCase providerName)

/-- Well-formedness of a registry for display purposes: every provider and
service display name is non-empty. -/
def namesOk (reg : Registry) : Prop :=
  ∀ kv ∈ reg, kv.2.name ≠ "" ∧ ∀ skv ∈ kv.2.services, skv.2.name ≠ ""

/-- A stored OAuth credential as returned by the credentials endpoint. -/
structure Credential where
  id : String
  name : String
  provider : String
  isDefault : Bool
deriving DecidableEq

/-- The selector state touched by `fetchCredentials`: the `selectedId` and
`credentials` `useState` cells. -/
structure SelState where
  selectedId : String
  credentials : List Credential
deriving DecidableEq

/-- Outcome of one `fetch` of the credentials endpoint: an OK response with
a parsed credential list, a non-OK response, or a thrown network/parse
error with its message. -/
inductive FetchResult where
  | ok : List Credential → FetchResult
  | httpError : FetchResult
  | thrown : String → FetchResult

/-- Observable outcome of one `fetchCredentials` run: the final state, the
arguments of the `onChange` calls in order, and the console error log. -/
structure FetchOutcome where
  state : SelState
  onChangeCalls : List String
  logs : List String
deriving DecidableEq

/-- JS `creds.some(cred => cred.id === s)`. -/
def credInList (creds : List Credential) (s : String) : Bool :=
  creds.any (fun c => c.id == s)

/-- The auto-selection pick implicit in `fetchCredentials` (lines 87-100):
the first credential flagged `isDefault` when one exists, else the sole
entry of a singleton list, else nothing. -/
def autoPick (creds : List Credential) : Option String :=
  match creds.find? (fun c => c.isDefault) with
  | some d => some d.id
  | none => if creds.length = 1 then creds.head?.map (fun c => c.id) else none

/-- `fetchCredentials` from credential-selector.tsx (lines 67-107), as a
function of the pre-call state and the fetch result.  A non-OK response
skips the whole `if (response.ok)` block; a thrown error is caught and
logged; an OK response stores the list, resets a stale non-empty selection
to `""` with an `onChange("")`, then auto-selects a default or singleton
credential.  Reads of `selectedId` after `setSelectedId` inside the same
run still see the captured pre-call value. -/
def fetchCredentials (st : SelState) (res : FetchResult) : FetchOutcome :=
  match res with
  | FetchResult.httpError => ⟨st, [], []⟩
  | FetchResult.thrown msg => ⟨st, [], ["Error fetching credentials: " ++ msg]⟩
  | FetchResult.ok creds =>
    let s := st.selectedId
    let sel1 : String :=
      if s ≠ "" ∧ credInList creds s = false then "" else s
    let calls1 : List String :=
      if s ≠ "" ∧ credInList creds s = false then [""] else []
    if (s = "" ∨ credInList creds s = false) ∧ 0 < creds.length then
      match creds.find? (fun c => c.isDefault) with
      | some defaultCred =>
        ⟨⟨defaultCred.id, creds⟩, calls1 ++ [defaultCred.id], []⟩
      | none =>
        if creds.length = 1 then
          match creds.head? with
          | some c0 => ⟨⟨c0.id, creds⟩, calls1 ++ [c0.id], []⟩
          | none => ⟨⟨sel1, creds⟩, calls1, []⟩
        else ⟨⟨sel1, creds⟩, calls1, []⟩
    else ⟨⟨sel1, creds⟩, calls1, []⟩

/-- The effective model of the Agent block tool resolver (agent.ts line
45): `params.model || 'gpt-4o'`, where an absent or empty model is falsy. -/
def effectiveModel (paramsModel : Option String) : String :=
  match paramsModel with
  | some s => if s ≠ "" then s else "gpt-4o"
  | none => "gpt-4o"

/-- The Agent block `tools.config.tool` resolver (agent.ts lines 44-54)
over an abstract `MODEL_TOOLS` table (from `../consts`, not under src/,
modelled as a string association list).  Throws are modelled as
`Except.error` carrying the thrown message; `!tool` is JS falsiness of the
looked-up value. -/
def toolFromModelConfig (modelTools : List (String × String))
    (paramsModel : Option String) : Except String String :=
  let model := effectiveModel paramsModel
  if model = "" then Except.error "No model selected"
  else
    match lookupStr modelTools model with
    | some t =>
      if t = "" then Except.error ("Invalid model selected: " ++ model)
      else Except.ok t
    | none => Except.error ("Invalid model selected: " ++ model)

/-- The dragged payload of the code-editor drop handler after JSON parsing:
its `type` tag and the optional `connectionData.sourceBlockId`. -/
structure DropPayload where
  type : String
  sourceBlockId : Option String
deriving DecidableEq

/-- JS `s.slice(0, n)` over characters. -/
def jsSliceTo (s : String) (n : Nat) : String := ⟨s.data.take n⟩

/-- JS `s.slice(n)` over characters. -/
def jsSliceFrom (s : String) (n : Nat) : String := ⟨s.data.drop n⟩

/-- `handleDrop` from code.tsx (lines 110-144), restricted to the code
value it produces: an unparsable payload (JSON.parse throw) or a payload
whose type is not `connectionBlock` leaves the code unchanged; otherwise a
single `<` is inserted at the drop position, which is the textarea
`selectionStart` or, when that is unavailable, the code length. -/
def handleDrop (payload : Option DropPayload) (code : String)
    (selectionStart : Option Nat) : String :=
  match payload with
  | none => code
  | some d =>
    if d.type ≠ "connectionBlock" then code
    else
      let dropPosition := selectionStart.getD code.length
      jsSliceTo code dropPosition ++ "<" ++ jsSliceFrom code dropPosition

/-- Sample service fixture mirroring the spec example registry entry. -/
def sheetsService : OAuthService :=
  ⟨"google-sheets", "Google Sheets", Icon.glyph "sheets", ["sheets.read"]⟩

/-- Sample base provider fixture mirroring the spec example. -/
def googleConfig : OAuthProviderConfig :=
  ⟨"Google", Icon.glyph "google", [("sheets", sheetsService)]⟩

/-- Sample registry fixture mirroring the spec example. -/
def sampleRegistry : Registry := [("google", googleConfig)]

/-- Fixture credential with id `a`, flagged default. -/
def credA : Credential := ⟨"a", "Acme A", "google-sheets", true⟩

/-- Fixture credential with id `b`, flagged default. -/
def credB : Credential := ⟨"b", "Acme B", "google-sheets", true⟩

/-- Fixture credential with the empty id, not default. -/
def credEmptyId : Credential := ⟨"", "Anon", "google-sheets", false⟩

/-- Fixture credential with id `y`, flagged default. -/
def credY : Credential := ⟨"y", "Acme Y", "google-sheets", true⟩

/-- Fixture credential with id `c`, not default. -/
def credC : Credential := ⟨"c", "Acme C", "google-sheets", false⟩

/-- A successful association-list lookup returns the payload of some entry
of the list. -/
theorem lookupStr_mem {α : Type} (l : List (String × α)) (k : String) (v : α)
    (h : lookupStr l k = some v) : ∃ kv ∈ l, kv.2 = v := by
  unfold lookupStr at h
  cases hf : l.find? (fun kv => kv.1 == k) with
  | none => rw [hf] at h; cases h
  | some kv =>
    rw [hf] at h
    refine ⟨kv, List.mem_of_find?_eq_some hf, ?_⟩
    simpa using h

/-- Capitalizing the first character preserves the length. -/
theorem capFirst_length (l : List Char) : (capFirst l).length = l.length := by
  cases l <;> rfl

/-- A JS split always produces at least one group. -/
theorem splitOnChar_ne_nil (sep : Char) (l : List Char) :
    splitOnChar sep l ≠ [] := by
  cases l with
  | nil => simp [splitOnChar]
  | cons c rest =>
    simp only [splitOnChar]
    split
    · simp
    · split <;> simp

/-- Joining a split with single-character separators restores the length. -/
theorem joinSpace_splitOnChar_length (sep : Char) (l : List Char) :
    (joinSpace (splitOnChar sep l)).length = l.length := by
  induction l with
  | nil => rfl
  | cons c rest ih =>
    obtain ⟨g, gs, hgs⟩ : ∃ g gs, splitOnChar sep rest = g :: gs := by
      cases hsp : splitOnChar sep rest with
      | nil => exact absurd hsp (splitOnChar_ne_nil sep rest)
      | cons g gs => exact ⟨g, gs, rfl⟩
    rw [hgs] at ih
    by_cases hc : c = sep
    · simp only [splitOnChar, hc, if_pos rfl, hgs]
      simp only [joinSpace] at ih ⊢
      cases gs with
      | nil => simp_all [joinSpace]
      | cons g2 gs2 => simp_all [joinSpace]
    · simp only [splitOnChar, if_neg hc, hgs]
      cases gs with
      | nil => simp_all [joinSpace]
      | cons g2 gs2 => simp_all [joinSpace]

/-- Capitalizing every group before joining preserves the length. -/
theorem joinSpace_map_capFirst_length (gs : List (List Char)) :
    (joinSpace (gs.map capFirst)).length = (joinSpace gs).length := by
  induction gs with
  | nil => rfl
  | cons g rest ih =>
    cases rest with
    | nil => simp [joinSpace, capFirst_length]
    | cons g2 rest2 =>
      simp only [List.map_cons, joinSpace] at ih ⊢
      simp [capFirst_length, ih]

/-- The title-cased fallback name has exactly the length of the raw
provider id. -/
theorem titleCase_length (p : String) : (titleCase p).length = p.length := by
  show (joinSpace ((splitOnChar '-' p.data).map capFirst)).length = p.data.length
  rw [joinSpace_map_capFirst_length, joinSpace_splitOnChar_length]

/-- The title-cased fallback name of a non-empty provider id is non-empty. -/
theorem titleCase_ne_empty (p : String) (hp : p ≠ "") : titleCase p ≠ "" := by
  intro h
  apply hp
  have hl := titleCase_length p
  rw [h] at hl
  have hz : p.length = 0 := hl.symm
  have hd : p.data = [] := List.length_eq_zero.mp hz
  cases p
  simp_all

/-- Whatever `autoPick` returns is the id of a credential of the list. -/
theorem autoPick_mem (creds : List Credential) (cid : String)
    (h : autoPick creds = some cid) : credInList creds cid = true := by
  unfold autoPick at h
  cases hf : creds.find? (fun c => c.isDefault) with
  | some d =>
    rw [hf] at h
    have hd : d.id = cid := by simpa using h
    have hmem := List.mem_of_find?_eq_some hf
    simp only [credInList, List.any_eq_true]
    exact ⟨d, hmem, by simp [hd]⟩
  | none =>
    rw [hf] at h
    cases creds with
    | nil => simp at h
    | cons c cs =>
      by_cases hlen : (c :: cs).length = 1
      · rw [if_pos hlen] at h
        have hc : c.id = cid := by simpa using h
        simp [credInList, hc]
      · rw [if_neg hlen] at h
        cases h

/-- Characterization of `fetchCredentials` on an OK response: a non-empty
still-valid selection is kept silently; otherwise the auto-pick result (or
the empty string) is installed, with a leading reset call exactly when the
prior selection was non-empty. -/
theorem fetchCredentials_ok_eq (st : SelState) (creds : List Credential) :
    fetchCredentials st (FetchResult.ok creds) =
      if st.selectedId ≠ "" ∧ credInList creds st.selectedId = true then
        ⟨⟨st.selectedId, creds⟩, [], []⟩
      else if st.selectedId = "" then
        ⟨⟨(autoPick creds).getD "", creds⟩, (autoPick creds).toList, []⟩
      else
        ⟨⟨(autoPick creds).getD "", creds⟩, "" :: (autoPick creds).toList, []⟩ := by
  by_cases hs : st.selectedId = ""
  · cases creds with
    | nil => simp [fetchCredentials, autoPick, credInList, hs]
    | cons c cs =>
      simp only [fetchCredentials, autoPick, hs]
      simp only [ne_eq, not_true_eq_false, false_and, if_false, true_or,
        List.length_cons, Nat.succ_pos, and_true, if_true, true_and]
      cases hf : (c :: cs).find? (fun c => c.isDefault) with
      | some d => simp [hf]
      | none =>
        by_cases hcs : cs = []
        · simp [hf, hcs]
        · simp [hf, hcs]
  · by_cases hin : credInList creds st.selectedId = true
    · simp [fetchCredentials, hs, hin]
    · have hin' : credInList creds st.selectedId = false :=
        Bool.eq_false_iff.mpr (by simpa using hin)
      cases creds with
      | nil => simp [fetchCredentials, autoPick, credInList, hs]
      | cons c cs =>
        simp only [fetchCredentials, autoPick, hin']
        simp only [hs, ne_eq, not_false_eq_true, true_and, if_true, or_true,
          List.length_cons, Nat.succ_pos, and_true, if_false]
        cases hf : (c :: cs).find? (fun c => c.isDefault) with
        | some d => simp [hf, hs]
        | none =>
          by_cases hcs : cs = []
          · simp [hf, hcs, hs]
          · simp [hf, hcs, hs]

/-- The effective model string of the Agent tool resolver is never empty. -/
theorem effectiveModel_ne_empty (pm : Option String) : effectiveModel pm ≠ "" := by
  cases pm with
  | none => simp [effectiveModel]
  | some s =>
    by_cases hs : s = "" <;> simp [effectiveModel, hs]

/-- The invalid-model message never coincides with the no-model message. -/
theorem invalid_msg_ne (m : String) :
    ("Invalid model selected: " ++ m) ≠ "No model selected" := by
  intro h
  have hl := congrArg String.length h
  rw [String.length_append] at hl
  have h24 : ("Invalid model selected: " : String).length = 24 := rfl
  have h17 : ("No model selected" : String).length = 17 := rfl
  omega

/-- C1 counterexample: a fetched list with two default credentials and a
stale prior selection has neither exactly one default nor exactly one
entry, so the claim requires the empty final selection, yet the code
selects the first default credential. -/
theorem autoselect_two_defaults_cex :
    credInList [credA, credB] "x" = false ∧
    ([credA, credB].countP (fun c => c.isDefault)) ≠ 1 ∧
    ([credA, credB] : List Credential).length ≠ 1 ∧
    (fetchCredentials ⟨"x", []⟩
      (FetchResult.ok [credA, credB])).state.selectedId = "a" ∧
    ("a" : String) ≠ "" := by decide

/-- C1 (amended): after a successful fetch whose list does not contain the
prior selection, the final selection is the id of the first credential
flagged default when at least one is, else the sole entry of a singleton
list, else the empty string. -/
theorem autoselect_policy (st : SelState) (creds : List Credential)
    (h : credInList creds st.selectedId = false) :
    (fetchCredentials st (FetchResult.ok creds)).state.selectedId =
      (match creds.find? (fun c => c.isDefault) with
       | some d => d.id
       | none =>
         if creds.length = 1 then ((creds.head?).map (fun c => c.id)).getD ""
         else "") := by
  rw [fetchCredentials_ok_eq, if_neg (by simp [h])]
  have hgetD : (autoPick creds).getD "" =
      (match creds.find? (fun c => c.isDefault) with
       | some d => d.id
       | none =>
         if creds.length = 1 then ((creds.head?).map (fun c => c.id)).getD ""
         else "") := by
    unfold autoPick
    cases hf : creds.find? (fun c => c.isDefault) with
    | some d => simp
    | none =>
      by_cases hlen : creds.length = 1
      · simp [hlen]
      · simp [hlen]
  by_cases hs : st.selectedId = ""
  · rw [if_pos hs]; exact hgetD
  · rw [if_neg hs]; exact hgetD

/-- C1 witness: the amended policy applied to the two-default fixture. -/
theorem autoselect_policy_witness :
    (fetchCredentials ⟨"x", []⟩
      (FetchResult.ok [credA, credB])).state.selectedId =
      (match [credA, credB].find? (fun c => c.isDefault) with
       | some d => d.id
       | none =>
         if ([credA, credB] : List Credential).length = 1 then
           ((([credA, credB] : List Credential).head?).map (fun c => c.id)).getD ""
         else "") :=
  autoselect_policy ⟨"x", []⟩ [credA, credB] (by decide)

/-- C2 counterexample: with the empty prior selection and a fetched list
containing a credential whose id is the empty string, the prior selection
appears in the list, yet the code still auto-selects the default
credential and invokes onChange. -/
theorem keep_selection_cex :
    credInList [credEmptyId, credY] "" = true ∧
    (fetchCredentials ⟨"", []⟩
      (FetchResult.ok [credEmptyId, credY])).state.selectedId = "y" ∧
    (fetchCredentials ⟨"", []⟩
      (FetchResult.ok [credEmptyId, credY])).onChangeCalls = ["y"] := by decide

/-- C2 (amended): when the prior selection is non-empty and appears in the
fetched list, the selection is kept and onChange is not invoked. -/
theorem keep_selection (st : SelState) (creds : List Credential)
    (hs : st.selectedId ≠ "") (hin : credInList creds st.selectedId = true) :
    (fetchCredentials st (FetchResult.ok creds)).state.selectedId =
      st.selectedId ∧
    (fetchCredentials st (FetchResult.ok creds)).onChangeCalls = [] := by
  rw [fetchCredentials_ok_eq, if_pos ⟨hs, hin⟩]
  exact ⟨rfl, rfl⟩

/-- C2 witness: a kept non-empty selection on a concrete fetch. -/
theorem keep_selection_witness :
    (fetchCredentials ⟨"y", []⟩ (FetchResult.ok [credY])).state.selectedId = "y" ∧
    (fetchCredentials ⟨"y", []⟩ (FetchResult.ok [credY])).onChangeCalls = [] :=
  keep_selection ⟨"y", []⟩ [credY] (by decide) (by decide)

/-- C3: after every successful fetch the cached list is the fetched list
and the selection is empty or the id of some credential of that list. -/
theorem selection_invariant (st : SelState) (creds : List Credential) :
    (fetchCredentials st (FetchResult.ok creds)).state.credentials = creds ∧
    ((fetchCredentials st (FetchResult.ok creds)).state.selectedId = "" ∨
      credInList creds
        ((fetchCredentials st (FetchResult.ok creds)).state.selectedId) = true) := by
  rw [fetchCredentials_ok_eq]
  by_cases h1 : st.selectedId ≠ "" ∧ credInList creds st.selectedId = true
  · rw [if_pos h1]
    exact ⟨rfl, Or.inr h1.2⟩
  · rw [if_neg h1]
    cases hap : autoPick creds with
    | none =>
      by_cases hs : st.selectedId = ""
      · rw [if_pos hs]
        exact ⟨rfl, Or.inl (by simp [hap])⟩
      · rw [if_neg hs]
        exact ⟨rfl, Or.inl (by simp [hap])⟩
    | some cid =>
      have hmem := autoPick_mem creds cid hap
      by_cases hs : st.selectedId = ""
      · rw [if_pos hs]
        exact ⟨rfl, Or.inr (by simpa [hap] using hmem)⟩
      · rw [if_neg hs]
        exact ⟨rfl, Or.inr (by simpa [hap] using hmem)⟩

/-- C4 counterexample: a non-OK response leaves state and onChange alone
but, contrary to the claim, logs nothing. -/
theorem fetch_failure_cex :
    (fetchCredentials ⟨"x", [credC]⟩ FetchResult.httpError).state =
      ⟨"x", [credC]⟩ ∧
    (fetchCredentials ⟨"x", [credC]⟩ FetchResult.httpError).onChangeCalls = [] ∧
    (fetchCredentials ⟨"x", [credC]⟩ FetchResult.httpError).logs = [] := by decide

/-- C4 (amended): a thrown fetch error leaves the state untouched, invokes
no onChange and logs the failure; a non-OK response also leaves the state
untouched and invokes no onChange, but logs nothing. -/
theorem fetch_failure_atomicity (st : SelState) (msg : String) :
    fetchCredentials st (FetchResult.thrown msg) =
      ⟨st, [], ["Error fetching credentials: " ++ msg]⟩ ∧
    fetchCredentials st FetchResult.httpError = ⟨st, [], []⟩ :=
  ⟨rfl, rfl⟩

/-- C5: the implemented nested fallback of `getProviderName` coincides, for
every registry, effective service id and provider id, with the ordered
strategy chain stated by the spec. -/
theorem name_follows_spec_chain (reg : Registry) (sid p : String) :
    getProviderName reg sid p = specNameChain reg sid p := by
  unfold getProviderName specNameChain
  cases h1 : getServiceByProviderAndId reg p sid with
  | some svc => simp [firstSome]
  | none =>
    simp only [firstSome, Option.map_none']
    cases h2 : lookupStr reg (parseProvider p) with
    | none =>
      by_cases hd : p.data.contains '-'
      · simp [hd, firstSome]
      · simp [hd, firstSome]
    | some cfg =>
      by_cases hd : p.data.contains '-'
      · simp only [hd, if_true, Option.map_some', Option.getD_some]
        cases h3 : cfg.services.find? (fun kv =>
            kv.1 == (⟨(splitOnChar '-' p.data).getD 1 []⟩ : String) ||
            kv.1 == p || kv.2.providerId == p) with
        | some kv => simp [h3, firstSome]
        | none => simp [h3, firstSome]
      · simp_all [firstSome]

/-- C6: over every registry whose display names are non-empty, the name
lookup of a non-empty provider id returns a non-empty string, and the icon
lookup returns an icon; neither is partial. -/
theorem name_icon_total (reg : Registry) (sid p : String)
    (hreg : namesOk reg) (hp : p ≠ "") :
    getProviderName reg sid p ≠ "" ∧ ∃ ic : Icon, getProviderIcon reg p = ic := by
  refine ⟨?_, getProviderIcon reg p, rfl⟩
  unfold getProviderName
  cases h1 : getServiceByProviderAndId reg p sid with
  | some svc =>
    simp only [h1]
    unfold getServiceByProviderAndId at h1
    cases h2 : lookupStr reg p with
    | none => rw [h2] at h1; cases h1
    | some cfg =>
      rw [h2] at h1
      obtain ⟨kv, hkv, hkveq⟩ := lookupStr_mem reg p cfg h2
      obtain ⟨skv, hskv, hskveq⟩ := lookupStr_mem cfg.services sid svc h1
      have hne := (hreg kv hkv).2 skv (by rw [hkveq]; exact hskv)
      rw [hskveq] at hne
      exact hne
  | none =>
    simp only [h1]
    cases h2 : lookupStr reg (parseProvider p) with
    | none =>
      by_cases hd : p.data.contains '-'
      · simp [hd, titleCase_ne_empty p hp]
      · simp [hd, titleCase_ne_empty p hp]
    | some cfg =>
      obtain ⟨kv, hkv, hkveq⟩ := lookupStr_mem reg (parseProvider p) cfg h2
      simp only [h2]
      by_cases hd : p.data.contains '-'
      · simp only [hd, if_true]
        cases h3 : cfg.services.find? (fun skv =>
            skv.1 == (⟨(splitOnChar '-' p.data).getD 1 []⟩ : String) ||
            skv.1 == p || skv.2.providerId == p) with
        | some skv =>
          simp only [h3]
          have hne := (hreg kv hkv).2 skv
            (by rw [hkveq]; exact List.mem_of_find?_eq_some h3)
          exact hne
        | none =>
          simp only [h3]
          have hne := (hreg kv hkv).1
          rw [hkveq] at hne
          exact hne
      · simp only [hd, if_neg]
        have hne := (hreg kv hkv).1
        rw [hkveq] at hne
        simpa using hne

/-- C6 witness: name and icon on the sample registry and a compound id. -/
theorem name_icon_total_witness :
    getProviderName sampleRegistry "sheets" "google-sheets" ≠ "" ∧
    ∃ ic : Icon, getProviderIcon sampleRegistry "google-sheets" = ic :=
  name_icon_total sampleRegistry "sheets" "google-sheets"
    (by unfold namesOk; decide) (by decide)

/-- C7 counterexample: an explicitly supplied empty-string service id is
not returned verbatim; the truthiness test sends it to the scope-derived
lookup, which here yields a different id. -/
theorem service_id_override_cex :
    getServiceId sampleRegistry "google-sheets" ["sheets.read"] (some "") =
      "sheets" ∧
    ("sheets" : String) ≠ "" := by decide

/-- C7 (amended): service-id resolution is a function of its inputs; a
non-empty explicit override is returned verbatim, and an absent or empty
override is derived from (provider, scopes) via the registry
scope-to-service mapping. -/
theorem service_id_resolution (reg : Registry) (provider : String)
    (scopes : List String) :
    (∀ s : String, s ≠ "" → getServiceId reg provider scopes (some s) = s) ∧
    getServiceId reg provider scopes none =
      getServiceIdFromScopes reg provider scopes ∧
    getServiceId reg provider scopes (some "") =
      getServiceIdFromScopes reg provider scopes := by
  refine ⟨fun s hs => ?_, rfl, ?_⟩
  · simp [getServiceId, hs]
  · simp [getServiceId]

/-- C7 witness: a non-empty override is returned verbatim on the sample
registry. -/
theorem service_id_resolution_witness :
    getServiceId sampleRegistry "google-sheets" ["sheets.read"]
      (some "custom") = "custom" :=
  (service_id_resolution sampleRegistry "google-sheets" ["sheets.read"]).1
    "custom" (by decide)

/-- C8: when a non-empty prior selection is absent from the fetched list,
the first onChange call of the fetch carries the empty string, and when a
credential is auto-picked a second call with its id follows, two calls in
total. -/
theorem intermediate_empty_onchange (st : SelState) (creds : List Credential)
    (hs : st.selectedId ≠ "") (hin : credInList creds st.selectedId = false) :
    (fetchCredentials st (FetchResult.ok creds)).onChangeCalls =
      "" :: (autoPick creds).toList ∧
    ∀ cid, autoPick creds = some cid →
      (fetchCredentials st (FetchResult.ok creds)).onChangeCalls = ["", cid] := by
  have h1 : (fetchCredentials st (FetchResult.ok creds)).onChangeCalls =
      "" :: (autoPick creds).toList := by
    rw [fetchCredentials_ok_eq, if_neg (by simp [hin]), if_neg hs]
  refine ⟨h1, fun cid hcid => ?_⟩
  rw [h1, hcid]
  rfl

/-- C8 witness: the two-call trace on the two-default fixture. -/
theorem intermediate_empty_onchange_witness :
    (fetchCredentials ⟨"x", []⟩
      (FetchResult.ok [credA, credB])).onChangeCalls =
      "" :: (autoPick [credA, credB]).toList :=
  (intermediate_empty_onchange ⟨"x", []⟩ [credA, credB]
    (by decide) (by decide)).1

/-- C9: over every tool table with non-empty tool ids, the Agent tool
resolver defaults to gpt-4o on an absent or empty model, its no-model
error is unreachable, and it errors exactly when the effective model is
not a key of the table, returning the mapped tool otherwise. -/
theorem agent_tool_resolution (modelTools : List (String × String))
    (pm : Option String) (hvals : ∀ kv ∈ modelTools, kv.2 ≠ "") :
    ((pm = none ∨ pm = some "") → effectiveModel pm = "gpt-4o") ∧
    toolFromModelConfig modelTools pm ≠ Except.error "No model selected" ∧
    (∀ t, lookupStr modelTools (effectiveModel pm) = some t →
      toolFromModelConfig modelTools pm = Except.ok t) ∧
    (lookupStr modelTools (effectiveModel pm) = none →
      toolFromModelConfig modelTools pm =
        Except.error ("Invalid model selected: " ++ effectiveModel pm)) := by
  have hne := effectiveModel_ne_empty pm
  refine ⟨?_, ?_, ?_, ?_⟩
  · rintro (rfl | rfl) <;> rfl
  · simp only [toolFromModelConfig]
    rw [if_neg hne]
    cases hl : lookupStr modelTools (effectiveModel pm) with
    | none => simpa using invalid_msg_ne (effectiveModel pm)
    | some t =>
      obtain ⟨kv, hkv, hkveq⟩ := lookupStr_mem _ _ _ hl
      have ht : t ≠ "" := hkveq ▸ hvals kv hkv
      simp [ht]
  · intro t hl
    obtain ⟨kv, hkv, hkveq⟩ := lookupStr_mem _ _ _ hl
    have ht : t ≠ "" := hkveq ▸ hvals kv hkv
    simp only [toolFromModelConfig]
    rw [if_neg hne, hl]
    simp [ht]
  · intro hl
    simp only [toolFromModelConfig]
    rw [if_neg hne, hl]

/-- C9 witness: on a one-entry tool table and an absent model the resolver
returns the tool mapped to gpt-4o. -/
theorem agent_tool_resolution_witness :
    toolFromModelConfig [("gpt-4o", "openai_chat")] none =
      Except.ok "openai_chat" :=
  (agent_tool_resolution [("gpt-4o", "openai_chat")] none
    (by decide)).2.2.1 "openai_chat" (by decide)

/-- C10: a connectionBlock drop at a position within the code inserts a
single left angle bracket there: the result is the first p characters,
then the inserted character, then the remaining characters, so the length
grows by exactly one and every prior character is preserved in order; an
unparsable payload or one of another type leaves the code unchanged. -/
theorem drop_inserts_marker (code : String) (p : Nat) (hp : p ≤ code.length) :
    (handleDrop (some ⟨"connectionBlock", none⟩) code (some p)).data =
      code.data.take p ++ '<' :: code.data.drop p ∧
    (handleDrop (some ⟨"connectionBlock", none⟩) code (some p)).length =
      code.length + 1 ∧
    (∀ d : DropPayload, d.type ≠ "connectionBlock" →
      handleDrop (some d) code (some p) = code) ∧
    handleDrop none code (some p) = code := by
  have hlt : ("<" : String).data = ['<'] := rfl
  have hdata : (handleDrop (some ⟨"connectionBlock", none⟩) code (some p)).data =
      code.data.take p ++ '<' :: code.data.drop p := by
    simp only [handleDrop]
    rw [if_neg (by simp)]
    simp [jsSliceTo, jsSliceFrom, String.data_append, hlt]
  refine ⟨hdata, ?_, ?_, rfl⟩
  · have h2 := congrArg List.length hdata
    simp only [List.length_append, List.length_cons, List.length_take,
      List.length_drop] at h2
    have hshow : (handleDrop (some ⟨"connectionBlock", none⟩) code (some p)).length =
        (handleDrop (some ⟨"connectionBlock", none⟩) code (some p)).data.length := rfl
    have hcl : code.length = code.data.length := rfl
    rw [hshow, h2, hcl]
    rw [hcl] at hp
    omega
  · intro d hd
    simp [handleDrop, hd]

/-- C10 witness: the insertion at position one of a three-character code. -/
theorem drop_inserts_marker_witness :
    (handleDrop (some ⟨"connectionBlock", none⟩) "abc" (some 1)).data =
      ("abc" : String).data.take 1 ++ '<' :: ("abc" : String).data.drop 1 :=
  (drop_inserts_marker "abc" 1 (by decide)).1

end Sim
